import Mathlib

/-!
Shallow embedding of the `django-iipimage` package (files
`iipimage/storage.py` and `iipimage/fields.py`, Python 2 / Django).

The embedding translates the pure computations of the source directly and
models its effectful parts (filesystem, subprocess, HTTP) by explicit state
passing:

* the filesystem is a `Finset String` of existing paths;
* one external-command invocation (`subprocess.check_call`) is summarised by
  a `ProcResult` (normal exit, `CalledProcessError`, or any other exception
  such as a spawn failure), together with the output path the command would
  create on success;
* a Python exception in flight is an `Except PyExc` value; `try/except/finally`
  is translated by explicit case analysis, with the Python rule that an
  exception raised inside a `finally` block replaces the pending one;
* the HTTP response body of the dimension probe is passed in as a string.
-/

/-- Python exceptions that the embedded code can raise. -/
inductive PyExc : Type
  | valueError (msg : String)
  | ioError (msg : String)
  | osError (msg : String)
  | calledProcessError (msg : String)
  deriving DecidableEq, Repr

/-! ## `ImageStorage.full_base_url` and `ImageStorage.url` (storage.py) -/

/-- `ImageStorage.full_base_url`: raises `ValueError` when `self.base_url`
is `None`, otherwise returns `'%s?FIF=%s' % (self.base_url, name)`. -/
def full_base_url (base_url : Option String) (name : String) :
    Except PyExc String :=
  match base_url with
  | none => .error (.valueError "This file is not accessible via a URL.")
  | some b => .ok (b ++ "?FIF=" ++ name)

/-- `ImageStorage.url`: `'%s&RST=*&QLT=100&CVT=JPEG' % self.full_base_url(name)`;
an exception from `full_base_url` propagates. -/
def url (base_url : Option String) (name : String) : Except PyExc String :=
  (full_base_url base_url name).map (fun s => s ++ "&RST=*&QLT=100&CVT=JPEG")

/-! ## Python value coercion used by `thumbnail_url` (fields.py)

`thumbnail_url` applies `int(...)` to its `height`/`width` arguments and
catches `TypeError`/`ValueError`.  The possible argument shapes are modelled
by `PyVal`; `pyCoerceInt` returns `some n` exactly when Python's `int()`
succeeds (numbers truncate toward zero, strings parse as an optional sign
followed by digits, with surrounding whitespace allowed; `None` raises
`TypeError`, unparseable strings raise `ValueError`). -/

/-- Characters accepted by Python's `str.strip()` / regex `\s` (ASCII range). -/
def pyIsSpace (c : Char) : Bool :=
  c = ' ' || c = '\t' || c = '\n' || c = '\r' || c = '\x0b' || c = '\x0c'

/-- ASCII decimal digit. -/
def isAsciiDigit (c : Char) : Bool :=
  '0' ≤ c && c ≤ '9'

/-- Numeric value of a list of decimal digit characters. -/
def digitsToNat (l : List Char) : Nat :=
  l.foldl (fun acc c => acc * 10 + (c.toNat - '0'.toNat)) 0

/-- Python's `str.strip()`: remove leading and trailing whitespace. -/
def pyStrip (s : String) : String :=
  String.mk (((s.data.dropWhile pyIsSpace).reverse.dropWhile pyIsSpace).reverse)

/-- A Python value passed as `height`/`width` to `thumbnail_url`:
absent (`None`), an integer, a float (represented exactly as a rational),
or a string. -/
inductive PyVal : Type
  | none
  | int (n : Int)
  | float (q : ℚ)
  | str (s : String)

/-- Python's `int(string)`: tolerate surrounding whitespace and an optional
sign; every remaining character must be a digit and there must be at least
one.  `none` models the `ValueError` that `int` raises otherwise. -/
def pyIntOfString (s : String) : Option Int :=
  let l := (pyStrip s).data
  let signDigits : Int × List Char :=
    match l with
    | '-' :: r => (-1, r)
    | '+' :: r => (1, r)
    | r => (1, r)
  if signDigits.2 ≠ [] ∧ signDigits.2.all isAsciiDigit then
    some (signDigits.1 * (digitsToNat signDigits.2 : Int))
  else
    Option.none

/-- Python's `int(value)` over the modelled value shapes; `none` models a
`TypeError`/`ValueError` being raised.  `int(float)` truncates toward zero,
which on an exact rational `q` is `q.num.div q.den` (Lean's `Int.div`
truncates toward zero). -/
def pyCoerceInt : PyVal → Option Int
  | .none => Option.none
  | .int n => some n
  | .float q => some (q.num.tdiv (q.den : Int))
  | .str s => pyIntOfString s

/-- `ImageFieldFile.thumbnail_url`: each of `height`/`width` becomes an
`&HEI=`/`&WID=` segment when `int()` succeeds on it and the empty string when
`int()` raises `TypeError` or `ValueError`; the result is
`'%s%s%s&CVT=JPEG' % (self.full_base_url, height, width)`.  An exception from
`full_base_url` propagates. -/
def thumbnail_url (base_url : Option String) (name : String)
    (height width : PyVal) : Except PyExc String :=
  let h := match pyCoerceInt height with
    | some n => "&HEI=" ++ toString n
    | Option.none => ""
  let w := match pyCoerceInt width with
    | some n => "&WID=" ++ toString n
    | Option.none => ""
  (full_base_url base_url name).map (fun b => b ++ h ++ w ++ "&CVT=JPEG")

/-! ## Theorems for the URL builders -/

/-- C5: `full_base_url` raises a `ValueError` exactly when no base URL is
configured, otherwise returns `<serverBaseUrl>?FIF=<key>`; and for every key,
`url` is `full_base_url` followed by `&RST=*&QLT=100&CVT=JPEG`. -/
theorem full_base_url_and_url_spec (base_url : Option String) (name : String) :
    ((∃ e, full_base_url base_url name = .error e) ↔ base_url = none) ∧
    (∀ b, full_base_url (some b) name = .ok (b ++ "?FIF=" ++ name)) ∧
    url base_url name =
      (full_base_url base_url name).map
        (fun s => s ++ "&RST=*&QLT=100&CVT=JPEG") := by
  refine ⟨⟨?_, ?_⟩, fun b => rfl, rfl⟩
  · rintro ⟨e, he⟩
    cases base_url with
    | none => rfl
    | some b => simp [full_base_url] at he
  · rintro rfl
    exact ⟨.valueError "This file is not accessible via a URL.", rfl⟩

/-- C3: with a configured base URL, `thumbnail_url` always produces
`<base>?FIF=<name><heiSegment><widSegment>&CVT=JPEG`, where the `HEI` segment
is `&HEI=<h>` exactly when the height argument coerces to an integer `h` and
empty otherwise (likewise `WID`), so the `HEI` segment precedes the `WID`
segment and the result always ends with `&CVT=JPEG`; non-coercible or absent
values are silently omitted and no error is raised. -/
theorem thumbnail_url_spec (b name : String) (height width : PyVal) :
    ∃ hs ws,
      thumbnail_url (some b) name height width =
        .ok (b ++ "?FIF=" ++ name ++ hs ++ ws ++ "&CVT=JPEG") ∧
      (match pyCoerceInt height with
        | some n => hs = "&HEI=" ++ toString n
        | Option.none => hs = "") ∧
      (match pyCoerceInt width with
        | some n => ws = "&WID=" ++ toString n
        | Option.none => ws = "") := by
  refine ⟨(match pyCoerceInt height with
            | some n => "&HEI=" ++ toString n
            | Option.none => ""),
          (match pyCoerceInt width with
            | some n => "&WID=" ++ toString n
            | Option.none => ""), ?_, ?_, ?_⟩
  · cases hh : pyCoerceInt height <;> cases hw : pyCoerceInt width <;>
      simp [thumbnail_url, full_base_url, Except.map, hh, hw,
        String.append_assoc]
  · cases hh : pyCoerceInt height <;> simp [hh]
  · cases hw : pyCoerceInt width <;> simp [hw]

/-! ## Path allocation (`get_image_path` / `generate_new_image_path`, storage.py) -/

/-- `generate_new_image_path`: `filename = str(uuid.uuid4())`,
`directory = filename[0]`, result `'%s/%s.jp2' % (directory, filename)`.
The UUID draw is passed in as the string `u`; `filename[0]` is `u.data.take 1`
(the UUID string is never empty, see `isUuid4String`). -/
def generate_new_image_path (u : String) : String :=
  let directory := String.mk (u.data.take 1)
  directory ++ "/" ++ u ++ ".jp2"

/-- Result of `get_image_path`: the returned upload path, plus whether
`original.image.delete(save=False)` was called (deleting the file stored
under the prior key before the new save). -/
structure ImagePathResult where
  path : String
  deletedOriginal : Bool
  deriving DecidableEq, Repr

/-- Python truthiness of `instance.id` (a primary key or `None`). -/
def pyTruthyId : Option Nat → Bool
  | Option.none => false
  | some n => n != 0

/-- `get_image_path(instance, filename)`.  The ORM interactions are passed in
explicitly: `instanceId` is `instance.id`, and `originalName` is
`instance._default_manager.get(pk=instance.id).image.name` (only consulted
when the id is truthy); `u` is the UUID draw used if a fresh path is
generated; `filename` is the uploaded file's original name. -/
def get_image_path (instanceId : Option Nat) (originalName : Option String)
    (u : String) (filename : String) : ImagePathResult :=
  if pyTruthyId instanceId then
    match originalName with
    | Option.none => ⟨generate_new_image_path u, false⟩
    | some s =>
      -- `if not image_path:` — the empty string is falsy
      if s = "" then ⟨generate_new_image_path u, false⟩
      else ⟨s, true⟩
  else ⟨generate_new_image_path u, false⟩

/-- Lowercase hexadecimal digit. -/
def isLowerHexDigit (c : Char) : Bool :=
  ('0' ≤ c && c ≤ '9') || ('a' ≤ c && c ≤ 'f')

/-- The character allowed at position `i` of the string form of a version-4
UUID: hyphens at positions 8, 13, 18, 23, the version digit `4` at
position 14, a variant digit at position 19, lowercase hex elsewhere. -/
def isUuidPosChar (i : Nat) (c : Char) : Bool :=
  if i = 8 || i = 13 || i = 18 || i = 23 then c = '-'
  else if i = 14 then c = '4'
  else if i = 19 then c = '8' || c = '9' || c = 'a' || c = 'b'
  else isLowerHexDigit c

/-- Positional check of a character list against the UUID shape, starting at
position `i`. -/
def uuidCheckFrom : Nat → List Char → Bool
  | _, [] => true
  | i, c :: rest => isUuidPosChar i c && uuidCheckFrom (i + 1) rest

/-- `str(uuid.uuid4())` always has this shape: 36 characters, hyphens and
lowercase hex in the 8-4-4-4-12 layout, version and variant nibbles fixed. -/
def isUuid4String (u : String) : Bool :=
  u.data.length = 36 && uuidCheckFrom 0 u.data

/-- Character class `[0-9a-f-]` of the storage-key pattern. -/
def isKeyChar (c : Char) : Bool :=
  isLowerHexDigit c || c = '-'

/-- The pattern `^[0-9a-f]/[0-9a-f-]{36}\.jp2$` on a character list. -/
def keyMatchList : List Char → Bool
  | c :: '/' :: rest =>
    isLowerHexDigit c && rest.length = 40 &&
      (rest.take 36).all isKeyChar && rest.drop 36 == ['.', 'j', 'p', '2']
  | _ => false

/-- The pattern `^[0-9a-f]/[0-9a-f-]{36}\.jp2$` as a decidable check. -/
def matchesKeyPattern (s : String) : Bool :=
  keyMatchList s.data

/-! ### Helper lemmas for strings and the UUID shape -/

theorem string_data_append (s t : String) : (s ++ t).data = s.data ++ t.data := by
  cases s; cases t; rfl

theorem string_eq_of_data_eq {s t : String} (h : s.data = t.data) : s = t := by
  cases s; cases t; exact congrArg String.mk h

theorem isKeyChar_of_isUuidPosChar {i : Nat} {c : Char}
    (h : isUuidPosChar i c = true) : isKeyChar c = true := by
  unfold isUuidPosChar at h
  split at h
  · simp only [decide_eq_true_eq] at h
    subst h; decide
  · split at h
    · simp only [decide_eq_true_eq] at h
      subst h; decide
    · split at h
      · rcases Bool.or_eq_true_iff.mp h with h' | h'
        · rcases Bool.or_eq_true_iff.mp h' with h'' | h''
          · rcases Bool.or_eq_true_iff.mp h'' with h3 | h3 <;>
              (simp only [decide_eq_true_eq] at h3; subst h3; decide)
          · simp only [decide_eq_true_eq] at h''
            subst h''; decide
        · simp only [decide_eq_true_eq] at h'
          subst h'; decide
      · simp [isKeyChar, h]

theorem all_isKeyChar_of_uuidCheckFrom :
    ∀ (l : List Char) (i : Nat), uuidCheckFrom i l = true →
      l.all isKeyChar = true := by
  intro l
  induction l with
  | nil => intro i _; rfl
  | cons c rest ih =>
    intro i h
    rcases Bool.and_eq_true_iff.mp h with ⟨h1, h2⟩
    simp only [List.all_cons, Bool.and_eq_true_iff]
    exact ⟨isKeyChar_of_isUuidPosChar h1, ih (i + 1) h2⟩

theorem generate_new_image_path_data (u : String) :
    (generate_new_image_path u).data =
      u.data.take 1 ++ '/' :: (u.data ++ ['.', 'j', 'p', '2']) := by
  simp [generate_new_image_path, string_data_append]

/-! ### Theorems for path allocation -/

/-- C7: every freshly generated key is `<shard>/<uuid>.jp2` with the shard
being the UUID string's first character, hence matches
`^[0-9a-f]/[0-9a-f-]{36}\.jp2$`; and distinct UUID draws yield distinct
keys. -/
theorem generate_new_image_path_spec (u : String)
    (hu : isUuid4String u = true) :
    matchesKeyPattern (generate_new_image_path u) = true ∧
    (∀ v, isUuid4String v = true → u ≠ v →
      generate_new_image_path u ≠ generate_new_image_path v) := by
  rcases Bool.and_eq_true_iff.mp hu with ⟨hlen', hchk⟩
  have hlen : u.data.length = 36 := by simpa using hlen'
  constructor
  · obtain ⟨c0, rest0, hcons⟩ : ∃ c0 rest0, u.data = c0 :: rest0 := by
      cases h : u.data with
      | nil => rw [h] at hlen; simp at hlen
      | cons a l => exact ⟨a, l, rfl⟩
    have hdata : (generate_new_image_path u).data =
        c0 :: '/' :: (u.data ++ ['.', 'j', 'p', '2']) := by
      rw [generate_new_image_path_data, hcons]; rfl
    have hc0 : isUuidPosChar 0 c0 = true := by
      rw [hcons] at hchk
      exact (Bool.and_eq_true_iff.mp hchk).1
    have hhex : isLowerHexDigit c0 = true := by
      simpa [isUuidPosChar] using hc0
    rw [matchesKeyPattern, hdata]
    simp only [keyMatchList, Bool.and_eq_true_iff]
    refine ⟨⟨⟨hhex, ?_⟩, ?_⟩, ?_⟩
    · simp [hlen]
    · rw [List.take_left' hlen]
      exact all_isKeyChar_of_uuidCheckFrom u.data 0 hchk
    · rw [List.drop_left' hlen]
      rfl
  · intro v hv hne heq
    rcases Bool.and_eq_true_iff.mp hv with ⟨hvlen', _⟩
    have hvlen : v.data.length = 36 := by simpa using hvlen'
    apply hne
    have hdq : (generate_new_image_path u).data =
        (generate_new_image_path v).data := by rw [heq]
    rw [generate_new_image_path_data, generate_new_image_path_data] at hdq
    obtain ⟨c0, rest0, hcons⟩ : ∃ c0 rest0, u.data = c0 :: rest0 := by
      cases h : u.data with
      | nil => rw [h] at hlen; simp at hlen
      | cons a l => exact ⟨a, l, rfl⟩
    obtain ⟨d0, rest1, hdcons⟩ : ∃ d0 rest1, v.data = d0 :: rest1 := by
      cases h : v.data with
      | nil => rw [h] at hvlen; simp at hvlen
      | cons a l => exact ⟨a, l, rfl⟩
    have h1 : u.data.take 1 = [c0] := by rw [hcons]; rfl
    have h2 : v.data.take 1 = [d0] := by rw [hdcons]; rfl
    rw [h1, h2] at hdq
    simp only [List.cons_append, List.nil_append, List.cons.injEq] at hdq
    exact string_eq_of_data_eq (List.append_cancel_right hdq.2.2)

/-- Witness for C7 at two concrete version-4 UUID strings. -/
theorem generate_new_image_path_spec_witness :
    isUuid4String "00000000-0000-4000-8000-000000000000" = true ∧
    isUuid4String "00000000-0000-4000-8000-000000000001" = true ∧
    matchesKeyPattern
      (generate_new_image_path "00000000-0000-4000-8000-000000000000") =
      true ∧
    generate_new_image_path "00000000-0000-4000-8000-000000000000" ≠
      generate_new_image_path "00000000-0000-4000-8000-000000000001" :=
  ⟨by decide, by decide,
   (generate_new_image_path_spec _ (by decide)).1,
   (generate_new_image_path_spec _ (by decide)).2 _ (by decide) (by decide)⟩

/-- C6: when the record already has a stored image (truthy id, non-empty
prior image name), `get_image_path` returns exactly the prior key and the
file previously stored under it is deleted
(`original.image.delete(save=False)`) before the new write. -/
theorem get_image_path_reuses_existing_key (idv : Nat)
    (prior u filename : String) (hid : idv ≠ 0) (hprior : prior ≠ "") :
    get_image_path (some idv) (some prior) u filename =
      ⟨prior, true⟩ := by
  simp [get_image_path, pyTruthyId, hid, hprior]

/-- Witness for C6 at a concrete record state. -/
theorem get_image_path_reuses_existing_key_witness :
    (1 : Nat) ≠ 0 ∧ "a/old.jp2" ≠ "" ∧
    get_image_path (some 1) (some "a/old.jp2")
      "00000000-0000-4000-8000-000000000000" "upload.png" =
      ⟨"a/old.jp2", true⟩ :=
  ⟨by decide, by decide,
   get_image_path_reuses_existing_key 1 "a/old.jp2"
     "00000000-0000-4000-8000-000000000000" "upload.png"
     (by decide) (by decide)⟩

/-- C9: the key produced by `get_image_path` does not depend on the uploaded
file's original filename: with the same record state and the same UUID draw,
any two filename arguments give the same result. -/
theorem get_image_path_filename_independent (instanceId : Option Nat)
    (originalName : Option String) (u f1 f2 : String) :
    get_image_path instanceId originalName u f1 =
      get_image_path instanceId originalName u f2 := rfl

/-! ## The dimension probe (`ImageFieldFile._get_image_dimensions`, fields.py)

The method GETs `full_base_url + '&OBJ=Max-size'` and runs
`re.match(r'^.*?Max-size:(\d+)\s+(\d+).*?$', r.text.strip())`.  The regex is
translated as a specialised matcher with Python `re` semantics:

* `re.match` anchors at position 0; the leading lazy `.*?` extends one
  character at a time, and `.` never matches a newline, so the literal
  `Max-size:` must begin before the first newline of the stripped text;
* `(\d+)` and `\s+` are greedy; no backtracking into them can ever help
  here, because a shortened digit run is followed by a digit (so `\s+`
  fails) and a shortened whitespace run is followed by a whitespace
  character (so `(\d+)` fails), so maximal munch is exact;
* the trailing `.*?$` (without `re.DOTALL`/`re.MULTILINE`) succeeds exactly
  when the remainder contains no newline, or consists of non-newlines
  followed by a single final newline (`$` matches before a trailing
  newline). -/

/-- Whether `.*?$` can consume the remainder `l` of the subject. -/
def dollarTailOk (l : List Char) : Bool :=
  l.count '\n' = 0 || (l.count '\n' = 1 && l.getLast? == some '\n')

/-- Greedy match of `(\d+)\s+(\d+).*?$` at the head of `l`, returning the two
captured numbers. -/
def matchTail (l : List Char) : Option (Nat × Nat) :=
  let d1 := l.takeWhile isAsciiDigit
  let r1 := l.dropWhile isAsciiDigit
  let sp := r1.takeWhile pyIsSpace
  let r2 := r1.dropWhile pyIsSpace
  let d2 := r2.takeWhile isAsciiDigit
  let r3 := r2.dropWhile isAsciiDigit
  if d1 ≠ [] ∧ sp ≠ [] ∧ d2 ≠ [] ∧ dollarTailOk r3 = true then
    some (digitsToNat d1, digitsToNat d2)
  else
    Option.none

/-- The literal `Max-size:` of the pattern. -/
def maxSizeLit : List Char := "Max-size:".data

/-- The anchored search for `^.*?Max-size:(\d+)\s+(\d+).*?$`: try the literal
at each position; `.*?` cannot move past a newline. -/
def scanMaxSize : List Char → Option (Nat × Nat)
  | [] => Option.none
  | c :: rest =>
    if maxSizeLit.isPrefixOf (c :: rest) then
      match matchTail ((c :: rest).drop 9) with
      | some p => some p
      | Option.none => if c = '\n' then Option.none else scanMaxSize rest
    else if c = '\n' then Option.none else scanMaxSize rest

/-- The parsing part of `_get_image_dimensions`: `width = height = 0`, then
the regex match on `r.text.strip()` overwrites them with the two captured
groups; the result is `(width, height)`. -/
def get_image_dimensions_parse (text : String) : Nat × Nat :=
  match scanMaxSize (pyStrip text).data with
  | some wh => wh
  | Option.none => (0, 0)

/-- The per-instance state of an `ImageFieldFile`:
`hasattr(self, '_dimensions_cache')` is `dimensions_cache ≠ none`. -/
structure ImageFieldFileState where
  dimensions_cache : Option (Nat × Nat)
  deriving DecidableEq, Repr

/-- Outcome of one call to `_get_image_dimensions`: the returned pair, the
instance state afterwards, and how many HTTP GETs the call performed. -/
structure DimCallResult where
  result : Nat × Nat
  state : ImageFieldFileState
  fetches : Nat
  deriving DecidableEq, Repr

/-- `ImageFieldFile._get_image_dimensions`: if `_dimensions_cache` is unset,
GET the probe URL (one fetch; `response` is the body the server would send),
parse it, and store the pair; then return `self._dimensions_cache`. -/
def get_image_dimensions (st : ImageFieldFileState) (response : String) :
    DimCallResult :=
  match st.dimensions_cache with
  | some wh => ⟨wh, st, 0⟩
  | Option.none =>
    let wh := get_image_dimensions_parse response
    ⟨wh, ⟨some wh⟩, 1⟩

/-- C8: the probe's HTTP fetch happens at most once per instance: the first
call (empty cache) performs exactly one fetch and stores the parsed pair,
and any call on an instance with a populated cache returns the stored pair
with zero fetches and an unchanged state — in particular the call right
after the first one does, whatever the server would have answered. -/
theorem get_image_dimensions_cached_spec (resp1 resp2 : String) :
    (get_image_dimensions ⟨Option.none⟩ resp1).fetches = 1 ∧
    (∀ wh, get_image_dimensions ⟨some wh⟩ resp2 = ⟨wh, ⟨some wh⟩, 0⟩) ∧
    get_image_dimensions (get_image_dimensions ⟨Option.none⟩ resp1).state
        resp2 =
      ⟨(get_image_dimensions ⟨Option.none⟩ resp1).result,
       (get_image_dimensions ⟨Option.none⟩ resp1).state, 0⟩ :=
  ⟨rfl, fun _ => rfl, rfl⟩

/-! ### Helper lemmas for the probe matcher -/

theorem pyIsSpace_not_digit {c : Char} (h : pyIsSpace c = true) :
    isAsciiDigit c = false := by
  simp only [pyIsSpace, Bool.or_eq_true, decide_eq_true_eq] at h
  rcases h with ((((h | h) | h) | h) | h) | h <;> (subst h; decide)

theorem isAsciiDigit_not_space {c : Char} (h : isAsciiDigit c = true) :
    pyIsSpace c = false := by
  cases hs : pyIsSpace c with
  | false => rfl
  | true => rw [pyIsSpace_not_digit hs] at h; exact absurd h (by simp)

theorem takeWhile_append_of_all {p : Char → Bool} {l r : List Char}
    (h : l.all p = true) : (l ++ r).takeWhile p = l ++ r.takeWhile p := by
  induction l with
  | nil => rfl
  | cons c t ih =>
    have h1 : p c = true := List.all_eq_true.mp h c (List.mem_cons_self c t)
    have h2 : t.all p = true :=
      List.all_eq_true.mpr fun x hx =>
        List.all_eq_true.mp h x (List.mem_cons_of_mem c hx)
    simp [List.takeWhile_cons, h1, ih h2]

theorem dropWhile_append_of_all {p : Char → Bool} {l r : List Char}
    (h : l.all p = true) : (l ++ r).dropWhile p = r.dropWhile p := by
  induction l with
  | nil => rfl
  | cons c t ih =>
    have h1 : p c = true := List.all_eq_true.mp h c (List.mem_cons_self c t)
    have h2 : t.all p = true :=
      List.all_eq_true.mpr fun x hx =>
        List.all_eq_true.mp h x (List.mem_cons_of_mem c hx)
    simp [List.dropWhile_cons, h1, ih h2]

/-- Soundness of `matchTail`: a successful match decomposes its input as
digits, whitespace, digits, remainder, and returns the two numbers. -/
theorem matchTail_sound {l : List Char} {w h : Nat}
    (hm : matchTail l = some (w, h)) :
    ∃ W S H B : List Char, l = W ++ (S ++ (H ++ B)) ∧
      W ≠ [] ∧ W.all isAsciiDigit = true ∧
      S ≠ [] ∧ S.all pyIsSpace = true ∧
      H ≠ [] ∧ H.all isAsciiDigit = true ∧
      w = digitsToNat W ∧ h = digitsToNat H := by
  simp only [matchTail] at hm
  split at hm
  case isTrue hc =>
    obtain ⟨hd1, hsp, hd2, -⟩ := hc
    obtain ⟨hw, hh⟩ : digitsToNat (l.takeWhile isAsciiDigit) = w ∧
        digitsToNat (((l.dropWhile isAsciiDigit).dropWhile
          pyIsSpace).takeWhile isAsciiDigit) = h := by
      have := Option.some.inj hm
      exact ⟨congrArg Prod.fst this, congrArg Prod.snd this⟩
    refine ⟨l.takeWhile isAsciiDigit,
      (l.dropWhile isAsciiDigit).takeWhile pyIsSpace,
      ((l.dropWhile isAsciiDigit).dropWhile pyIsSpace).takeWhile isAsciiDigit,
      ((l.dropWhile isAsciiDigit).dropWhile pyIsSpace).dropWhile isAsciiDigit,
      ?_, hd1, ?_, hsp, ?_, hd2, ?_, hw.symm, hh.symm⟩
    · rw [List.takeWhile_append_dropWhile, List.takeWhile_append_dropWhile,
        List.takeWhile_append_dropWhile]
    · exact List.all_eq_true.mpr fun x hx => List.mem_takeWhile_imp hx
    · exact List.all_eq_true.mpr fun x hx => List.mem_takeWhile_imp hx
    · exact List.all_eq_true.mpr fun x hx => List.mem_takeWhile_imp hx
  case isFalse => exact absurd hm (by simp)

/-- Soundness of the scan: a successful regex match exhibits the matched
occurrence of `Max-size:` and its two captured digit groups. -/
theorem scanMaxSize_sound :
    ∀ (l : List Char) (w h : Nat), scanMaxSize l = some (w, h) →
      ∃ A W S H B : List Char,
        l = A ++ (maxSizeLit ++ (W ++ (S ++ (H ++ B)))) ∧
        W ≠ [] ∧ W.all isAsciiDigit = true ∧
        S ≠ [] ∧ S.all pyIsSpace = true ∧
        H ≠ [] ∧ H.all isAsciiDigit = true ∧
        w = digitsToNat W ∧ h = digitsToNat H := by
  intro l
  induction l with
  | nil => intro w h hs; exact absurd hs (by simp [scanMaxSize])
  | cons c rest ih =>
    intro w h hs
    simp only [scanMaxSize] at hs
    by_cases hpre : maxSizeLit.isPrefixOf (c :: rest) = true
    · rw [if_pos hpre] at hs
      cases hmt : matchTail ((c :: rest).drop 9) with
      | some p =>
        rw [hmt] at hs
        obtain ⟨t, ht⟩ := List.isPrefixOf_iff_prefix.mp hpre
        have hlen : maxSizeLit.length = 9 := by decide
        have hdrop : (c :: rest).drop 9 = t := by
          rw [← ht, ← hlen, List.drop_left]
        obtain ⟨p1, p2⟩ := p
        have hp : p1 = w ∧ p2 = h := by
          have := Option.some.inj hs
          exact ⟨congrArg Prod.fst this, congrArg Prod.snd this⟩
        rw [hdrop] at hmt
        rw [hp.1, hp.2] at hmt
        obtain ⟨W, S, H, B, hEq, props⟩ := matchTail_sound hmt
        exact ⟨[], W, S, H, B, by rw [List.nil_append, ← ht, hEq], props⟩
      | none =>
        rw [hmt] at hs
        by_cases hnl : c = '\n'
        · rw [if_pos hnl] at hs; exact absurd hs (by simp)
        · rw [if_neg hnl] at hs
          obtain ⟨A, W, S, H, B, hEq, props⟩ := ih w h hs
          exact ⟨c :: A, W, S, H, B, by rw [List.cons_append, hEq], props⟩
    · rw [if_neg hpre] at hs
      by_cases hnl : c = '\n'
      · rw [if_pos hnl] at hs; exact absurd hs (by simp)
      · rw [if_neg hnl] at hs
        obtain ⟨A, W, S, H, B, hEq, props⟩ := ih w h hs
        exact ⟨c :: A, W, S, H, B, by rw [List.cons_append, hEq], props⟩

/-- Completeness of `matchTail` on a well-formed, newline-free tail. -/
theorem matchTail_complete {W S H B : List Char}
    (hW1 : W ≠ []) (hW2 : W.all isAsciiDigit = true)
    (hS1 : S ≠ []) (hS2 : S.all pyIsSpace = true)
    (hH1 : H ≠ []) (hH2 : H.all isAsciiDigit = true)
    (hB : ∀ c ∈ B, c ≠ '\n') :
    (matchTail (W ++ (S ++ (H ++ B)))).isSome = true := by
  obtain ⟨s0, S', rfl⟩ : ∃ s0 S', S = s0 :: S' := by
    cases S with
    | nil => exact absurd rfl hS1
    | cons a t => exact ⟨a, t, rfl⟩
  obtain ⟨h0, H', rfl⟩ : ∃ h0 H', H = h0 :: H' := by
    cases H with
    | nil => exact absurd rfl hH1
    | cons a t => exact ⟨a, t, rfl⟩
  have hs0 : pyIsSpace s0 = true :=
    List.all_eq_true.mp hS2 s0 (List.mem_cons_self s0 S')
  have hh0 : isAsciiDigit h0 = true :=
    List.all_eq_true.mp hH2 h0 (List.mem_cons_self h0 H')
  have hnds0 : ¬ isAsciiDigit s0 = true := by
    rw [pyIsSpace_not_digit hs0]; simp
  have hnsh0 : ¬ pyIsSpace h0 = true := by
    rw [isAsciiDigit_not_space hh0]; simp
  have htkS : ((s0 :: S') ++ ((h0 :: H') ++ B)).takeWhile isAsciiDigit
      = [] := by
    rw [List.cons_append, List.takeWhile_cons_of_neg hnds0]
  have htkH : ((h0 :: H') ++ B).takeWhile pyIsSpace = [] := by
    rw [List.cons_append, List.takeWhile_cons_of_neg hnsh0]
  have hd1 : (W ++ ((s0 :: S') ++ ((h0 :: H') ++ B))).takeWhile isAsciiDigit
      = W := by
    rw [takeWhile_append_of_all hW2, htkS, List.append_nil]
  have hr1 : (W ++ ((s0 :: S') ++ ((h0 :: H') ++ B))).dropWhile isAsciiDigit
      = (s0 :: S') ++ ((h0 :: H') ++ B) := by
    rw [dropWhile_append_of_all hW2, List.cons_append,
      List.dropWhile_cons_of_neg hnds0]
  have hsp : ((s0 :: S') ++ ((h0 :: H') ++ B)).takeWhile pyIsSpace
      = s0 :: S' := by
    rw [takeWhile_append_of_all hS2, htkH, List.append_nil]
  have hr2 : ((s0 :: S') ++ ((h0 :: H') ++ B)).dropWhile pyIsSpace
      = (h0 :: H') ++ B := by
    rw [dropWhile_append_of_all hS2, List.cons_append,
      List.dropWhile_cons_of_neg hnsh0]
  have hd2 : ((h0 :: H') ++ B).takeWhile isAsciiDigit
      = h0 :: (H' ++ B).takeWhile isAsciiDigit := by
    rw [List.cons_append, List.takeWhile_cons_of_pos hh0]
  have hr3 : ((h0 :: H') ++ B).dropWhile isAsciiDigit
      = B.dropWhile isAsciiDigit := dropWhile_append_of_all hH2
  have htail : dollarTailOk (B.dropWhile isAsciiDigit) = true := by
    have hcount : (B.dropWhile isAsciiDigit).count '\n' = 0 := by
      rw [List.count_eq_zero]
      intro hmem
      exact hB '\n' ((List.dropWhile_sublist isAsciiDigit).subset hmem) rfl
    simp [dollarTailOk, hcount]
  simp only [matchTail, hd1, hr1, hsp, hr2, hd2, hr3]
  rw [if_pos ⟨hW1, by simp, by simp, htail⟩]
  rfl

/-- One scan step: a non-newline head preserves eventual success. -/
theorem scanMaxSize_step {c : Char} {rest : List Char} (hc : c ≠ '\n')
    (h : (scanMaxSize rest).isSome = true) :
    (scanMaxSize (c :: rest)).isSome = true := by
  simp only [scanMaxSize]
  by_cases hpre : maxSizeLit.isPrefixOf (c :: rest) = true
  · rw [if_pos hpre]
    cases hmt : matchTail ((c :: rest).drop 9) with
    | some p => simp
    | none => rw [if_neg hc]; exact h
  · rw [if_neg hpre, if_neg hc]; exact h

/-- Unfolding equation of `scanMaxSize` on a cons cell. -/
theorem scanMaxSize_cons (c : Char) (rest : List Char) :
    scanMaxSize (c :: rest) =
      if maxSizeLit.isPrefixOf (c :: rest) = true then
        match matchTail ((c :: rest).drop 9) with
        | some p => some p
        | Option.none => if c = '\n' then Option.none else scanMaxSize rest
      else if c = '\n' then Option.none else scanMaxSize rest := rfl

/-- The scan succeeds when `Max-size:` occurs at the head of the subject
with a well-formed tail. -/
theorem scanMaxSize_at_head {t : List Char}
    (hmt : (matchTail t).isSome = true) :
    (scanMaxSize (maxSizeLit ++ t)).isSome = true := by
  have hpre : maxSizeLit.isPrefixOf (maxSizeLit ++ t) = true :=
    List.isPrefixOf_iff_prefix.mpr ⟨t, rfl⟩
  have hlen : maxSizeLit.length = 9 := by decide
  have hdrop : (maxSizeLit ++ t).drop 9 = t := by
    rw [← hlen, List.drop_left]
  obtain ⟨c, rest, hcr⟩ : ∃ c rest, maxSizeLit ++ t = c :: rest :=
    ⟨'M', "ax-size:".data ++ t, rfl⟩
  rw [hcr] at hpre hdrop ⊢
  rw [scanMaxSize_cons, if_pos hpre]
  cases hmt' : matchTail ((c :: rest).drop 9) with
  | some p => simp
  | none => rw [hdrop] at hmt'; rw [hmt'] at hmt; exact absurd hmt (by simp)

/-- Completeness of the scan on newline-free subjects containing a
well-formed occurrence of the pattern. -/
theorem scanMaxSize_complete :
    ∀ (A W S H B : List Char),
      (∀ c ∈ A ++ (maxSizeLit ++ (W ++ (S ++ (H ++ B)))), c ≠ '\n') →
      W ≠ [] → W.all isAsciiDigit = true →
      S ≠ [] → S.all pyIsSpace = true →
      H ≠ [] → H.all isAsciiDigit = true →
      (scanMaxSize (A ++ (maxSizeLit ++ (W ++ (S ++ (H ++ B)))))).isSome
        = true := by
  intro A
  induction A with
  | nil =>
    intro W S H B hnl hW1 hW2 hS1 hS2 hH1 hH2
    rw [List.nil_append]
    refine scanMaxSize_at_head (matchTail_complete hW1 hW2 hS1 hS2 hH1 hH2 ?_)
    intro c hc
    refine hnl c ?_
    rw [List.nil_append]
    refine List.mem_append_right _ (List.mem_append_right _
      (List.mem_append_right _ (List.mem_append_right _ hc)))
  | cons a A' ih =>
    intro W S H B hnl hW1 hW2 hS1 hS2 hH1 hH2
    rw [List.cons_append]
    refine scanMaxSize_step (hnl a (List.mem_cons_self a _)) ?_
    exact ih W S H B
      (fun c hc => hnl c (List.mem_cons_of_mem a hc)) hW1 hW2 hS1 hS2 hH1 hH2

/-- C4 counterexample: the body `"a\nMax-size:1 2"` decomposes as
"anything, then literal `Max-size:`, then whitespace-separated
`<width> <height>`, then anything" with the pair `(1, 2)`, yet the probe
returns `(0, 0)`: Python's `.` does not cross the newline, so `re.match`
fails on this body. -/
theorem get_image_dimensions_parse_counterexample :
    (∃ A W S H B : List Char,
      ("a\nMax-size:1 2" : String).data =
        A ++ (maxSizeLit ++ (W ++ (S ++ (H ++ B)))) ∧
      W ≠ [] ∧ W.all isAsciiDigit = true ∧ digitsToNat W = 1 ∧
      S ≠ [] ∧ S.all pyIsSpace = true ∧
      H ≠ [] ∧ H.all isAsciiDigit = true ∧ digitsToNat H = 2) ∧
    get_image_dimensions_parse "a\nMax-size:1 2" = (0, 0) ∧
    ((1 : Nat), (2 : Nat)) ≠ ((0 : Nat), (0 : Nat)) := by
  refine ⟨⟨['a', '\n'], ['1'], [' '], ['2'], [], ?_, ?_, ?_, ?_, ?_, ?_,
    ?_, ?_, ?_⟩, ?_, ?_⟩ <;> decide

/-- C4 (amended): the probe never raises; it returns `(0, 0)` on the empty
body and whenever the pattern does not match; any successful result is the
integer pair of digit groups embedded after a literal `Max-size:` in the
stripped body; and for a stripped body free of newlines that contains a
well-formed `Max-size:<width> <height>` occurrence, a match is found. -/
theorem get_image_dimensions_parse_spec :
    (get_image_dimensions_parse "" = (0, 0)) ∧
    (∀ text : String,
      get_image_dimensions_parse text = (0, 0) ∨
      ∃ A W S H B : List Char,
        (pyStrip text).data = A ++ (maxSizeLit ++ (W ++ (S ++ (H ++ B)))) ∧
        W ≠ [] ∧ W.all isAsciiDigit = true ∧
        S ≠ [] ∧ S.all pyIsSpace = true ∧
        H ≠ [] ∧ H.all isAsciiDigit = true ∧
        get_image_dimensions_parse text = (digitsToNat W, digitsToNat H)) ∧
    (∀ (text : String) (A W S H B : List Char),
      (pyStrip text).data = A ++ (maxSizeLit ++ (W ++ (S ++ (H ++ B)))) →
      (∀ c ∈ (pyStrip text).data, c ≠ '\n') →
      W ≠ [] → W.all isAsciiDigit = true →
      S ≠ [] → S.all pyIsSpace = true →
      H ≠ [] → H.all isAsciiDigit = true →
      (scanMaxSize (pyStrip text).data).isSome = true) := by
  refine ⟨rfl, fun text => ?_, fun text A W S H B hEq hnl hW1 hW2 hS1 hS2
    hH1 hH2 => ?_⟩
  · cases hsc : scanMaxSize (pyStrip text).data with
    | none => left; simp [get_image_dimensions_parse, hsc]
    | some wh =>
      right
      obtain ⟨w, h⟩ := wh
      obtain ⟨A, W, S, H, B, hEq, hW1, hW2, hS1, hS2, hH1, hH2, hw, hh⟩ :=
        scanMaxSize_sound _ w h hsc
      exact ⟨A, W, S, H, B, hEq, hW1, hW2, hS1, hS2, hH1, hH2, by
        simp [get_image_dimensions_parse, hsc, hw, hh]⟩
  · rw [hEq]
    refine scanMaxSize_complete A W S H B ?_ hW1 hW2 hS1 hS2 hH1 hH2
    rw [← hEq]
    exact hnl

/-- Witness for the amended C4 at the concrete body `"Max-size:1024 768"`
(and, for the completeness conjunct, its explicit decomposition). -/
theorem get_image_dimensions_parse_spec_witness :
    (scanMaxSize (pyStrip "Max-size:1024 768").data).isSome = true :=
  get_image_dimensions_parse_spec.2.2 "Max-size:1024 768"
    [] ['1', '0', '2', '4'] [' '] ['7', '6', '8'] []
    (by decide) (by decide) (by decide) (by decide) (by decide) (by decide)
    (by decide) (by decide)

/-! ## The conversion pipeline (`ImageStorage._convert_image` and
`ImageStorage._call_image_conversion`, storage.py)

The filesystem is the `Finset String` of existing paths.  One
`subprocess.check_call` invocation is summarised by a `ProcResult`; on a
normal exit the external command has created its output file.  The
`try/except/finally` of `_call_image_conversion` is translated case by case,
with Python's rule that an exception raised inside a `finally` block
replaces the exception currently in flight. -/

/-- Outcome of `subprocess.check_call(shlex.split(command))`: a normal exit,
a nonzero exit (`CalledProcessError`), or any other exception escaping the
call — e.g. the `OSError` of a spawn failure when the binary is missing. -/
inductive ProcResult : Type
  | success
  | calledProcessError (msg : String)
  | spawnError (msg : String)
  deriving DecidableEq, Repr

/-- Effect of the `check_call` line on the filesystem: success creates the
command's output file; otherwise the corresponding exception is raised and
no output is created. -/
def checkCall (fs : Finset String) (output : String) :
    ProcResult → Except PyExc (Finset String)
  | .success => .ok (insert output fs)
  | .calledProcessError msg => .error (.calledProcessError msg)
  | .spawnError msg => .error (.osError msg)

/-- `os.remove(p)`: deletes the file, or raises `OSError` when it does not
exist. -/
def osRemove (fs : Finset String) (p : String) :
    Except PyExc (Finset String) :=
  if p ∈ fs then .ok (fs.erase p)
  else .error (.osError ("No such file or directory: " ++ p))

/-- Result of one `_call_image_conversion` run: the exception propagated to
the caller (if any), the filesystem afterwards, and the number of
`os.remove(input_path)` invocations performed. -/
structure StageResult where
  exc : Option PyExc
  fs : Finset String
  removeCalls : Nat
  deriving DecidableEq

/-- `ImageStorage._call_image_conversion(command, input_path)`:

```
try:
    subprocess.check_call(shlex.split(command.encode('ascii')))
except subprocess.CalledProcessError, e:
    os.remove(input_path)
    raise IOError('Failed to convert the page image to .jp2: %s' % e)
finally:
    os.remove(input_path)
```

`output` is the output path embedded in `command`; `r` summarises the
`check_call` outcome. -/
def call_image_conversion (fs : Finset String) (output input : String)
    (r : ProcResult) : StageResult :=
  match checkCall fs output r with
  | .ok fs1 =>
    -- no exception in the try body; only the finally block runs
    match osRemove fs1 input with
    | .ok fs2 => ⟨Option.none, fs2, 1⟩
    | .error e => ⟨some e, fs1, 1⟩
  | .error (.calledProcessError m) =>
    -- the except clause runs: os.remove, then raise IOError; afterwards the
    -- finally block runs, and an exception it raises replaces the pending one
    match osRemove fs input with
    | .ok fs1 =>
      match osRemove fs1 input with
      | .ok fs2 =>
        ⟨some (.ioError ("Failed to convert the page image to .jp2: " ++ m)),
          fs2, 2⟩
      | .error e2 => ⟨some e2, fs1, 2⟩
    | .error e1 =>
      -- the except clause's os.remove itself raised; the IOError line is
      -- never reached; the finally block still runs
      match osRemove fs input with
      | .ok fs2 => ⟨some e1, fs2, 2⟩
      | .error e2 => ⟨some e2, fs, 2⟩
  | .error e =>
    -- an exception the except clause does not catch; the finally block runs
    match osRemove fs input with
    | .ok fs2 => ⟨some e, fs2, 1⟩
    | .error e2 => ⟨some e2, fs, 1⟩

/-- `os.path.split`: split at the last `/`; the head keeps no trailing
slashes unless it consists only of slashes. -/
def pySplit (p : String) : String × String :=
  let rev := p.data.reverse
  let tail := (rev.takeWhile (· ≠ '/')).reverse
  let headAll := (rev.dropWhile (· ≠ '/')).reverse
  let head :=
    if headAll.all (· = '/') then headAll
    else (headAll.reverse.dropWhile (· = '/')).reverse
  (String.mk head, String.mk tail)

/-- `os.path.splitext` on a basename: the extension starts at the last dot,
provided some earlier character of the basename is not a dot (leading dots
do not start an extension). -/
def pySplitExt (name : String) : String × String :=
  let rev := name.data.reverse
  let afterDot := rev.takeWhile (· ≠ '.')
  match rev.dropWhile (· ≠ '.') with
  | '.' :: rootRev =>
    if rootRev.any (· ≠ '.') then
      (String.mk rootRev.reverse, String.mk ('.' :: afterDot.reverse))
    else (name, "")
  | _ => (name, "")

/-- `os.path.join` for one component. -/
def pyJoin (dir_name file_name : String) : String :=
  match file_name.data with
  | '/' :: _ => file_name
  | _ =>
    if dir_name = "" then file_name
    else match dir_name.data.getLast? with
      | some '/' => dir_name ++ file_name
      | _ => dir_name ++ "/" ++ file_name

/-- `ImageStorage._convert_image(name)` after `full_path = self.path(name)`:
derive `temp_file = os.path.join(dir_name, '%s_1.tif' % file_root)`, run the
TIFF stage with `full_path` as the input to clean up, then the JP2 stage
with `temp_file` as the input to clean up; an exception from a stage
propagates immediately.  (The final `os.chmod` does not change which files
exist, so it does not appear in the filesystem model.)  `r1`, `r2` summarise
the two external commands. -/
def convert_image (fs : Finset String) (full_path : String)
    (r1 r2 : ProcResult) : Option PyExc × Finset String :=
  let dir_file := pySplit full_path
  let root_ext := pySplitExt dir_file.2
  let temp_file := pyJoin dir_file.1 (root_ext.1 ++ "_1.tif")
  let s1 := call_image_conversion fs temp_file full_path r1
  match s1.exc with
  | some e => (some e, s1.fs)
  | Option.none =>
    let s2 := call_image_conversion s1.fs full_path temp_file r2
    (s2.exc, s2.fs)

/-! ### Theorems for the conversion pipeline -/

/-- C10: whenever the external command invocation raises any exception at
all — a nonzero exit or a spawn failure alike — the stage's input file is
deleted before an exception propagates to the caller: the deletion sits on
every exit path of `_call_image_conversion`. -/
theorem call_image_conversion_cleanup_on_exception
    (fs : Finset String) (output input : String) (r : ProcResult)
    (hin : input ∈ fs) (hr : r ≠ .success) :
    ∃ e, (call_image_conversion fs output input r).exc = some e ∧
      input ∉ (call_image_conversion fs output input r).fs := by
  cases r with
  | success => exact absurd rfl hr
  | calledProcessError m =>
    simp only [call_image_conversion, checkCall, osRemove, if_pos hin]
    rw [if_neg (by simp)]
    exact ⟨_, rfl, Finset.not_mem_erase _ _⟩
  | spawnError m =>
    simp only [call_image_conversion, checkCall, osRemove, if_pos hin]
    exact ⟨_, rfl, Finset.not_mem_erase _ _⟩

/-- Witness for C10 at a concrete spawn failure. -/
theorem call_image_conversion_cleanup_on_exception_witness :
    "s/in.jp2" ∈ ({"s/in.jp2"} : Finset String) ∧
    ProcResult.spawnError "No such file or directory" ≠ ProcResult.success ∧
    ∃ e, (call_image_conversion {"s/in.jp2"} "s/out.tif" "s/in.jp2"
        (.spawnError "No such file or directory")).exc = some e ∧
      "s/in.jp2" ∉ (call_image_conversion {"s/in.jp2"} "s/out.tif" "s/in.jp2"
        (.spawnError "No such file or directory")).fs :=
  ⟨by decide, by decide,
   call_image_conversion_cleanup_on_exception {"s/in.jp2"} "s/out.tif"
     "s/in.jp2" (.spawnError "No such file or directory")
     (by decide) (by decide)⟩

/-- C1, evaluated at the failing input: on a successful stage the input file
is removed by one `os.remove` call, and a successful two-stage pipeline
leaves exactly the final file; but on a failed stage `os.remove(input_path)`
is invoked twice — once in the except clause and once in the finally block —
so the input is *not* removed exactly once, and the second call raises
`OSError` on the already-deleted path. -/
theorem call_image_conversion_remove_twice_on_failure :
    convert_image {"0/aaa.jp2"} "0/aaa.jp2" .success .success =
      (Option.none, ({"0/aaa.jp2"} : Finset String)) ∧
    (call_image_conversion {"0/aaa.jp2"} "0/aaa_1.tif" "0/aaa.jp2"
      .success).removeCalls = 1 ∧
    (call_image_conversion {"0/aaa.jp2"} "0/aaa_1.tif" "0/aaa.jp2"
      (.calledProcessError "Command returned non-zero exit status 1")
      ).removeCalls = 2 := by
  refine ⟨by decide, by decide, by decide⟩

/-- C2, evaluated at the failing input: on a nonzero exit the input file is
indeed deleted, but the `IOError` built in the except clause never reaches
the caller — the finally block's second `os.remove` raises `OSError` on the
now-missing path, and that `OSError` replaces the `IOError`. -/
theorem call_image_conversion_ioerror_masked :
    (call_image_conversion {"b/img.jp2"} "b/img_1.tif" "b/img.jp2"
        (.calledProcessError "Command convert returned non-zero exit status 1")
        ).exc =
      some (.osError "No such file or directory: b/img.jp2") ∧
    "b/img.jp2" ∉ (call_image_conversion {"b/img.jp2"} "b/img_1.tif"
        "b/img.jp2"
        (.calledProcessError "Command convert returned non-zero exit status 1")
        ).fs ∧
    ∀ m, (call_image_conversion {"b/img.jp2"} "b/img_1.tif" "b/img.jp2"
        (.calledProcessError "Command convert returned non-zero exit status 1")
        ).exc ≠ some (.ioError m) := by
  refine ⟨by decide, by decide, fun m h => ?_⟩
  have : PyExc.osError "No such file or directory: b/img.jp2" =
      PyExc.ioError m := by
    have h0 : (call_image_conversion {"b/img.jp2"} "b/img_1.tif" "b/img.jp2"
        (.calledProcessError "Command convert returned non-zero exit status 1")
        ).exc =
        some (.osError "No such file or directory: b/img.jp2") := by decide
    rw [h0] at h
    exact Option.some.inj h
  exact absurd this (by simp)
